import Mathlib

/-!
Shallow embedding of the shortbot trading core (src/bot/core) in Lean 4.

Conventions:
* Python `Decimal` values are modelled as exact rationals (`ℚ`); Python
  `float` percentages are likewise modelled as `ℚ`.
* Timestamps, uuids and logging are irrelevant to every property below and
  are dropped from the embedded records.
* Python dictionaries keyed by strings are modelled as association lists;
  lookup returns the first matching entry, mirroring the unique-key dict.
* Methods that mutate `self` in place become functions returning the updated
  record (together with the Python return value, when there is one).
* Exceptions become `Except`/`Option` results.
-/

/-- Order side, from portfolio.py `OrderSide`. -/
inductive OrderSide where
  | BUY
  | SELL
deriving DecidableEq, Repr

/-- Order type, from portfolio.py `OrderType`. -/
inductive OrderType where
  | MARKET
  | LIMIT
  | STOP_MARKET
  | STOP_LIMIT
deriving DecidableEq, Repr

/-- Order status, from portfolio.py `OrderStatus`. -/
inductive OrderStatus where
  | NEW
  | PARTIALLY_FILLED
  | FILLED
  | CANCELED
  | REJECTED
  | EXPIRED
deriving DecidableEq, Repr

/-- Position side, from portfolio.py `PositionSide`. -/
inductive PositionSide where
  | LONG
  | SHORT
deriving DecidableEq, Repr

/-- Position status, from portfolio.py `PositionStatus`. -/
inductive PositionStatus where
  | OPEN
  | CLOSED
  | LIQUIDATED
deriving DecidableEq, Repr

/-- Order model, from portfolio.py `Order` (timestamps and ids dropped). -/
structure Order where
  symbol : String := "UNKNOWN"
  side : OrderSide := OrderSide.SELL
  type : OrderType := OrderType.MARKET
  quantity : ℚ
  price : Option ℚ := none
  stop_price : Option ℚ := none
  status : OrderStatus := OrderStatus.NEW
  filled_quantity : ℚ := 0
  avg_price : Option ℚ := none
  commission : ℚ := 0
deriving DecidableEq, Repr

/-- Remaining quantity, from `Order.remaining_quantity`. -/
def Order.remaining_quantity (o : Order) : ℚ :=
  o.quantity - o.filled_quantity

/-- Partial fill, from `Order.fill` (portfolio.py lines 88-106): add the fill
to `filled_quantity`, update the running weighted `avg_price`, accumulate
commission, then recompute the status. -/
def Order.fill (o : Order) (quantity price : ℚ) (commission : ℚ := 0) : Order :=
  let filled_quantity := o.filled_quantity + quantity
  let avg_price : ℚ :=
    match o.avg_price with
    | none => price
    | some avg => (avg * (filled_quantity - quantity) + price * quantity) / filled_quantity
  let o' : Order :=
    { o with
        filled_quantity := filled_quantity
        avg_price := some avg_price
        commission := o.commission + commission }
  if o'.quantity ≤ o'.filled_quantity then
    { o' with status := OrderStatus.FILLED }
  else if 0 < o'.filled_quantity then
    { o' with status := OrderStatus.PARTIALLY_FILLED }
  else
    o'

/-- Position model, from portfolio.py `Position` (timestamps, ids, order-id
lists and take-profit fields irrelevant to the claims are dropped). -/
structure Position where
  symbol : String
  side : PositionSide
  size : ℚ
  entry_price : ℚ
  mark_price : ℚ
  liquidation_price : Option ℚ := none
  status : PositionStatus := PositionStatus.OPEN
  margin : ℚ := 0
  unrealized_pnl : ℚ := 0
  realized_pnl : ℚ := 0
  total_commission : ℚ := 0
  tp_price : Option ℚ := none
deriving DecidableEq, Repr

/-- From `Position.is_short`. -/
def Position.is_short (p : Position) : Bool :=
  p.side = PositionSide.SHORT

/-- From `Position.calculate_unrealized_pnl` (portfolio.py lines 161-170). -/
def Position.calculate_unrealized_pnl (p : Position) : ℚ :=
  if p.is_short then
    (p.entry_price - p.mark_price) * p.size
  else
    (p.mark_price - p.entry_price) * p.size

/-- From `Position.update_mark_price` (portfolio.py lines 155-159). -/
def Position.update_mark_price (p : Position) (new_price : ℚ) : Position :=
  let p' := { p with mark_price := new_price }
  { p' with unrealized_pnl := p'.calculate_unrealized_pnl }

/-- From `Position.close` (portfolio.py lines 214-227). -/
def Position.close (p : Position) (close_price : ℚ) (commission : ℚ := 0) : Position :=
  let pnl :=
    if p.is_short then (p.entry_price - close_price) * p.size
    else (close_price - p.entry_price) * p.size
  { p with
      status := PositionStatus.CLOSED
      realized_pnl := pnl - commission
      total_commission := p.total_commission + commission
      unrealized_pnl := 0 }

/-- From `Position.liquidate` (portfolio.py lines 229-236): the whole margin
is lost. -/
def Position.liquidate (p : Position) : Position :=
  { p with
      status := PositionStatus.LIQUIDATED
      realized_pnl := -p.margin
      unrealized_pnl := 0 }

/-- Wallet model, from portfolio.py `Wallet` (timestamp dropped). -/
structure Wallet where
  balance : ℚ := 0
  available_balance : ℚ := 0
  margin_balance : ℚ := 0
  unrealized_pnl : ℚ := 0
  daily_start_balance : ℚ := 0
  daily_pnl : ℚ := 0
  daily_trades : ℕ := 0
  total_realized_pnl : ℚ := 0
  total_commission : ℚ := 0
  win_count : ℕ := 0
  loss_count : ℕ := 0
deriving DecidableEq, Repr

/-- From `Wallet.daily_return_pct` (portfolio.py lines 264-269). -/
def Wallet.daily_return_pct (w : Wallet) : ℚ :=
  if w.daily_start_balance = 0 then 0
  else w.daily_pnl / w.daily_start_balance * 100

/-- From `Wallet.use_margin` (portfolio.py lines 285-292): atomic
check-and-reserve; returns the updated wallet and the Python boolean. -/
def Wallet.use_margin (w : Wallet) (amount : ℚ) : Wallet × Bool :=
  if amount ≤ w.available_balance then
    ({ w with
        available_balance := w.available_balance - amount
        margin_balance := w.margin_balance + amount }, true)
  else
    (w, false)

/-- From `Wallet.free_margin` (portfolio.py lines 294-298): clamps the margin
balance at zero and credits the available balance in full. -/
def Wallet.free_margin (w : Wallet) (amount : ℚ) : Wallet :=
  { w with
      margin_balance := max 0 (w.margin_balance - amount)
      available_balance := w.available_balance + amount }

/-- From `Wallet.realize_pnl` (portfolio.py lines 305-321): net PnL is the
argument pnl minus the commission argument; a strictly positive net PnL
counts as a win, anything else (zero included) as a loss. -/
def Wallet.realize_pnl (w : Wallet) (pnl : ℚ) (commission : ℚ := 0) : Wallet :=
  let net_pnl := pnl - commission
  { w with
      balance := w.balance + net_pnl
      available_balance := w.available_balance + net_pnl
      total_realized_pnl := w.total_realized_pnl + net_pnl
      total_commission := w.total_commission + commission
      daily_pnl := w.daily_pnl + net_pnl
      daily_trades := w.daily_trades + 1
      win_count := if 0 < net_pnl then w.win_count + 1 else w.win_count
      loss_count := if 0 < net_pnl then w.loss_count else w.loss_count + 1 }

/-- From `Wallet.reset_daily` (portfolio.py lines 323-328). -/
def Wallet.reset_daily (w : Wallet) : Wallet :=
  { w with
      daily_start_balance := w.balance
      daily_pnl := 0
      daily_trades := 0 }

/-- Dict lookup on the symbol-keyed position map (`self.positions.get`). -/
def lookupPos : List (String × Position) → String → Option Position
  | [], _ => none
  | kv :: rest, s => if kv.1 = s then some kv.2 else lookupPos rest s

/-- Dict update at an existing key (in-place mutation of a stored position). -/
def setPos : List (String × Position) → String → Position → List (String × Position)
  | [], _, _ => []
  | kv :: rest, s, p =>
    if kv.1 = s then (kv.1, p) :: rest else kv :: setPos rest s p

/-- Portfolio model, from portfolio.py `Portfolio` (order map and timestamps
dropped; no claim touches them). -/
structure Portfolio where
  positions : List (String × Position) := []
  wallet : Wallet := {}
deriving DecidableEq, Repr

/-- From `Portfolio.get_position` (portfolio.py lines 354-356). -/
def Portfolio.get_position (pf : Portfolio) (symbol : String) : Option Position :=
  lookupPos pf.positions symbol

/-- From `Portfolio.get_open_positions` (portfolio.py lines 391-393). -/
def Portfolio.get_open_positions (pf : Portfolio) : List Position :=
  (pf.positions.filter fun kv => kv.2.status = PositionStatus.OPEN).map Prod.snd

/-- From `Portfolio.get_position_count` (portfolio.py lines 429-431). -/
def Portfolio.get_position_count (pf : Portfolio) : ℕ :=
  pf.get_open_positions.length

/-- From `Portfolio.can_open_position` (portfolio.py lines 433-435). -/
def Portfolio.can_open_position (pf : Portfolio) (max_positions : ℕ) : Bool :=
  pf.get_position_count < max_positions

/-- From `Portfolio.close_position` (portfolio.py lines 358-374): guard on a
missing or non-OPEN position, otherwise close, release the stored margin and
realize the position PnL; returns the Python boolean. -/
def Portfolio.close_position (pf : Portfolio) (symbol : String) (close_price : ℚ)
    (commission : ℚ := 0) : Portfolio × Bool :=
  match lookupPos pf.positions symbol with
  | none => (pf, false)
  | some position =>
    if position.status = PositionStatus.OPEN then
      let closed := position.close close_price commission
      let w1 := pf.wallet.free_margin closed.margin
      let w2 := w1.realize_pnl closed.realized_pnl commission
      ({ pf with positions := setPos pf.positions symbol closed, wallet := w2 }, true)
    else
      (pf, false)

/-- From `Portfolio.liquidate_position` (portfolio.py lines 376-389): guard on
a missing or non-OPEN position, otherwise liquidate and realize the margin
loss (no margin release). -/
def Portfolio.liquidate_position (pf : Portfolio) (symbol : String) : Portfolio × Bool :=
  match lookupPos pf.positions symbol with
  | none => (pf, false)
  | some position =>
    if position.status = PositionStatus.OPEN then
      let liq := position.liquidate
      let w := pf.wallet.realize_pnl liq.realized_pnl 0
      ({ pf with positions := setPos pf.positions symbol liq, wallet := w }, true)
    else
      (pf, false)

/-! ## Ledger operation sequences (for the wallet-invariant claim)

The Wallet/Portfolio operations named by the specification, as a small
command language; applying an operation runs the corresponding embedded
method and keeps the resulting state. -/

/-- One Wallet/Portfolio operation from the set named in the invariant. -/
inductive LedgerOp where
  | useMargin (amount : ℚ)
  | freeMargin (amount : ℚ)
  | realizePnl (pnl commission : ℚ)
  | closePosition (symbol : String) (close_price commission : ℚ)
  | liquidatePosition (symbol : String)
deriving DecidableEq, Repr

/-- Run one ledger operation on a portfolio state. -/
def Portfolio.applyOp (pf : Portfolio) : LedgerOp → Portfolio
  | LedgerOp.useMargin a => { pf with wallet := (pf.wallet.use_margin a).1 }
  | LedgerOp.freeMargin a => { pf with wallet := pf.wallet.free_margin a }
  | LedgerOp.realizePnl p c => { pf with wallet := pf.wallet.realize_pnl p c }
  | LedgerOp.closePosition s cp c => (pf.close_position s cp c).1
  | LedgerOp.liquidatePosition s => (pf.liquidate_position s).1

/-- Run a sequence of ledger operations left to right. -/
def Portfolio.applyOps (pf : Portfolio) (ops : List LedgerOp) : Portfolio :=
  ops.foldl Portfolio.applyOp pf

/-- The wallet accounting invariant of the specification:
available + margin-in-use never exceeds the total balance. -/
def walletInv (w : Wallet) : Prop :=
  w.available_balance + w.margin_balance ≤ w.balance

instance (w : Wallet) : Decidable (walletInv w) := by
  unfold walletInv; infer_instance

/-- Side condition under which one operation preserves the wallet invariant:
a margin release must not exceed the margin currently in use (this covers
the release hidden inside `close_position`, whose amount is the stored
position margin). The remaining operations need no side condition. -/
def opOk (pf : Portfolio) : LedgerOp → Prop
  | LedgerOp.freeMargin a => a ≤ pf.wallet.margin_balance
  | LedgerOp.closePosition s _ _ =>
      ∀ p, lookupPos pf.positions s = some p → p.margin ≤ pf.wallet.margin_balance
  | _ => True

/-- Every operation of the sequence satisfies its side condition in the state
in which it runs. -/
def safeOps : Portfolio → List LedgerOp → Prop
  | _, [] => True
  | pf, op :: ops => opOk pf op ∧ safeOps (pf.applyOp op) ops

/-! ## Risk manager (src/bot/core/risk.py) -/

/-- Risk configuration, from config.py `RiskConfig` (thresholds only). -/
structure RiskConfig where
  daily_warning_threshold : ℚ := 10
  daily_shutdown_threshold : ℚ := 20
  max_portfolio_risk : ℚ := 10
deriving DecidableEq, Repr

/-- Pydantic field bounds on the risk thresholds (config.py lines 116-117:
warning in [5, 20], shutdown in [10, 50]). -/
def RiskConfig.valid (c : RiskConfig) : Prop :=
  5 ≤ c.daily_warning_threshold ∧ c.daily_warning_threshold ≤ 20 ∧
    10 ≤ c.daily_shutdown_threshold ∧ c.daily_shutdown_threshold ≤ 50

/-- Kind of drawdown alert returned by the risk manager. -/
inductive DrawdownAlert where
  | critical
  | warning
deriving DecidableEq, Repr

/-- From `RiskManager.check_daily_drawdown` (risk.py lines 82-123): critical
when |daily return %| reaches the shutdown threshold, else warning when it
reaches the warning threshold, else nothing. -/
def RiskManager.check_daily_drawdown (c : RiskConfig) (w : Wallet) : Option DrawdownAlert :=
  let daily_pnl_pct := |w.daily_return_pct|
  if c.daily_shutdown_threshold ≤ daily_pnl_pct then some DrawdownAlert.critical
  else if c.daily_warning_threshold ≤ daily_pnl_pct then some DrawdownAlert.warning
  else none

/-- From `RiskManager.on_position_closed` (risk.py lines 253-265): a strictly
negative realized PnL extends the consecutive-loss streak, anything else
(zero included) resets it. Returns the new consecutive-loss counter. -/
def RiskManager.on_position_closed (consecutive_losses : ℕ) (position : Position) : ℕ :=
  if position.realized_pnl < 0 then consecutive_losses + 1 else 0

/-- Reason returned by `should_stop_trading`. -/
inductive StopReason where
  | drawdown
  | consecutiveLosses
  | lowBalance
deriving DecidableEq, Repr

/-- From `RiskManager.should_stop_trading` (risk.py lines 267-285): first
matching reason among critical drawdown, consecutive-loss limit, and the $10
absolute balance floor. -/
def RiskManager.should_stop_trading (c : RiskConfig) (consecutive_losses max_consecutive_losses : ℕ)
    (w : Wallet) : Option StopReason :=
  if c.daily_shutdown_threshold ≤ |w.daily_return_pct| then some StopReason.drawdown
  else if max_consecutive_losses ≤ consecutive_losses then some StopReason.consecutiveLosses
  else if w.available_balance < 10 then some StopReason.lowBalance
  else none

/-! ## Signal engine (src/bot/core/signals.py)

The indicator arithmetic itself (RSI, EMA, MACD, ...) never decides any
claim below; it is abstracted as a total function argument, so every theorem
holds for every possible indicator computation. The control flow around it
(the 50-bar guard, the error wrapping, the enabled gate and the voting rule)
is translated from the source. -/

/-- One OHLCV kline bar (open time dropped). -/
structure Bar where
  open_price : ℚ
  high : ℚ
  low : ℚ
  close : ℚ
  volume : ℚ
deriving DecidableEq, Repr

/-- Signal-combination rule, from config.py `SignalLogic`. -/
inductive SignalLogic where
  | ALL_TRUE
  | MAJORITY_TRUE
  | ANY_TRUE
deriving DecidableEq, Repr

/-- Failure of the indicator pipeline (`IndicatorCalculationError`). -/
inductive SignalError where
  | insufficientData
  | calcError (msg : String)
deriving DecidableEq, Repr

/-- Indicator dict: indicator name to value series, as produced by
`calculate_indicators`. -/
def Indicators := List (String × List ℚ)

/-- From `StrategyEngine.calculate_indicators` (signals.py lines 342-397):
fewer than 50 bars fails with the insufficient-data error; otherwise the
indicator dict is computed (arithmetic abstracted as `compute`). -/
def StrategyEngine.calculate_indicators (compute : List Bar → Indicators)
    (klines : List Bar) : Except SignalError Indicators :=
  if klines.length < 50 then Except.error SignalError.insufficientData
  else Except.ok (compute klines)

/-- Result of `generate_short_signals`: either the boolean signal dict, or
the error dict built when the signal derivation itself throws (signals.py
lines 476-478). -/
inductive SignalOutcome where
  | signals (m : List (String × Bool))
  | errorMap (msg : String)
deriving DecidableEq, Repr

/-- From `StrategyEngine.generate_short_signals` (signals.py lines 399-480):
the indicator computation runs outside the try block, so its failure
propagates; a failure while deriving the booleans is caught and turned into
an error map (derivation abstracted as `build`). -/
def StrategyEngine.generate_short_signals (compute : List Bar → Indicators)
    (build : Indicators → List Bar → Except String (List (String × Bool)))
    (klines : List Bar) : Except SignalError SignalOutcome :=
  match StrategyEngine.calculate_indicators compute klines with
  | Except.error e => Except.error e
  | Except.ok indicators =>
    match build indicators klines with
    | Except.error msg => Except.ok (SignalOutcome.errorMap msg)
    | Except.ok signals => Except.ok (SignalOutcome.signals signals)

/-- Count of boolean signals that are true (signals.py line 493). -/
def trueCount (signals : List (String × Bool)) : ℕ :=
  (signals.filter fun kv => kv.2).length

/-- Count of boolean signals (signals.py line 494). -/
def totalCount (signals : List (String × Bool)) : ℕ :=
  signals.length

/-- Voting rule (signals.py lines 499-511); the majority test
`true_signals > total_signals / 2` on floats is `total < 2 * true` exactly. -/
def signalDecision (logic : SignalLogic) (signals : List (String × Bool)) : Bool :=
  match logic with
  | SignalLogic.ALL_TRUE => signals.all fun kv => kv.2
  | SignalLogic.MAJORITY_TRUE => totalCount signals < 2 * trueCount signals
  | SignalLogic.ANY_TRUE => 0 < trueCount signals

/-- From `StrategyEngine.should_open_short` (signals.py lines 482-518):
disabled indicators return a no-short decision immediately; an error map
returns a no-short decision; otherwise the voting rule decides. The string
component is the reason payload. -/
def StrategyEngine.should_open_short (enabled : Bool) (logic : SignalLogic)
    (compute : List Bar → Indicators)
    (build : Indicators → List Bar → Except String (List (String × Bool)))
    (klines : List Bar) : Except SignalError (Bool × String) :=
  if enabled = false then Except.ok (false, "indicators disabled")
  else
    match StrategyEngine.generate_short_signals compute build klines with
    | Except.error e => Except.error e
    | Except.ok (SignalOutcome.errorMap msg) => Except.ok (false, msg)
    | Except.ok (SignalOutcome.signals signals) =>
      if totalCount signals = 0 then Except.ok (false, "no computable signals")
      else Except.ok (signalDecision logic signals, "signal vote")

/-! ## Trade engine scan cycle (src/bot/core/engine.py)

The exchange port is external (spec section 6); its responses enter the model
as an environment record. Every exception a cycle can meet is represented in
the result: `error_logged` holds the exception caught by the blanket
`except Exception` at the end of `_process_scan_cycle`. The function is
total, mirroring the fact that no exception ever leaves the cycle. -/

/-- Exceptions visible inside a scan cycle. -/
inductive EngineError where
  | dailyDrawdownExceeded (current_drawdown limit : ℚ)
  | exchangeError (msg : String)
deriving DecidableEq, Repr

/-- What the per-candidate gates decide for one symbol (engine.py lines
295-301): stop the whole loop at the position-count ceiling, skip when
`get_position` returns a record, otherwise run the signal check. -/
inductive CandidateAction where
  | stop
  | skip
  | check
deriving DecidableEq, Repr

/-- The gate sequence applied to one candidate symbol in
`TradeEngine._process_scan_cycle` (engine.py lines 295-301). -/
def TradeEngine.candidate_action (pf : Portfolio) (max_concurrent_positions : ℕ)
    (symbol : String) : CandidateAction :=
  if pf.can_open_position max_concurrent_positions = false then CandidateAction.stop
  else if (lookupPos pf.positions symbol).isSome then CandidateAction.skip
  else CandidateAction.check

/-- Exchange-facing environment of one scan cycle. `signal_result` is the
outcome of `_check_short_signal` for a symbol (an `error` models a raised
per-symbol exception, caught at engine.py lines 312-314); `open_effect` is
the portfolio effect of `_open_short_position`, which catches all its own
exceptions (engine.py lines 377-380). -/
structure ScanEnv where
  top_gainers : Except String (List String)
  signal_result : String → Except String Bool
  open_effect : Portfolio → String → Portfolio
  max_concurrent_positions : ℕ

/-- The candidate loop of `_process_scan_cycle` (engine.py lines 289-314),
returning the symbols for which a signal check actually ran. -/
def TradeEngine.scan_candidates (env : ScanEnv) :
    Portfolio → List String → List String
  | _, [] => []
  | pf, symbol :: rest =>
    match TradeEngine.candidate_action pf env.max_concurrent_positions symbol with
    | CandidateAction.stop => []
    | CandidateAction.skip => TradeEngine.scan_candidates env pf rest
    | CandidateAction.check =>
      match env.signal_result symbol with
      | Except.error _ => symbol :: TradeEngine.scan_candidates env pf rest
      | Except.ok false => symbol :: TradeEngine.scan_candidates env pf rest
      | Except.ok true =>
        symbol :: TradeEngine.scan_candidates env (env.open_effect pf symbol) rest

/-- Observable outcome of one scan cycle. -/
structure CycleResult where
  warning_emitted : Bool
  critical_emitted : Bool
  emergency_stop : Bool
  signal_checks : List String
  error_logged : Option EngineError
deriving Repr

/-- From `TradeEngine._process_scan_cycle` (engine.py lines 274-317) together
with `_check_daily_drawdown` (lines 470-497): the drawdown check runs first;
at the critical threshold it emits the critical event, awaits
`emergency_stop()` and raises `DailyDrawdownExceededError` - which, like
every other exception of the try block, is caught by the blanket
`except Exception` at lines 316-317 and only logged, so the cycle returns
normally in every case. -/
def TradeEngine.process_scan_cycle (pf : Portfolio) (warn shut : ℚ) (env : ScanEnv) :
    CycleResult :=
  let daily_pnl_pct := |pf.wallet.daily_return_pct|
  let warning := warn ≤ daily_pnl_pct
  if shut ≤ daily_pnl_pct then
    { warning_emitted := warning
      critical_emitted := true
      emergency_stop := true
      signal_checks := []
      error_logged := some (EngineError.dailyDrawdownExceeded daily_pnl_pct shut) }
  else
    match env.top_gainers with
    | Except.error msg =>
      { warning_emitted := warning
        critical_emitted := false
        emergency_stop := false
        signal_checks := []
        error_logged := some (EngineError.exchangeError msg) }
    | Except.ok symbols =>
      { warning_emitted := warning
        critical_emitted := false
        emergency_stop := false
        signal_checks := TradeEngine.scan_candidates env pf symbols
        error_logged := none }

/-! ## Lemmas: wallet invariant preservation -/

lemma walletInv_use_margin (w : Wallet) (a : ℚ) (h : walletInv w) :
    walletInv (w.use_margin a).1 := by
  unfold Wallet.use_margin walletInv at *
  split
  · simp only
    linarith
  · exact h

lemma walletInv_free_margin (w : Wallet) (a : ℚ) (h : walletInv w)
    (ha : a ≤ w.margin_balance) : walletInv (w.free_margin a) := by
  unfold Wallet.free_margin walletInv at *
  simp only
  rw [max_eq_right (by linarith : (0:ℚ) ≤ w.margin_balance - a)]
  linarith

lemma walletInv_realize_pnl (w : Wallet) (pnl c : ℚ) (h : walletInv w) :
    walletInv (w.realize_pnl pnl c) := by
  unfold Wallet.realize_pnl walletInv at *
  simp only
  linarith

lemma Position.close_margin (p : Position) (cp c : ℚ) : (p.close cp c).margin = p.margin := rfl

lemma walletInv_close_position (pf : Portfolio) (s : String) (cp c : ℚ)
    (h : walletInv pf.wallet)
    (hm : ∀ p, lookupPos pf.positions s = some p → p.margin ≤ pf.wallet.margin_balance) :
    walletInv (pf.close_position s cp c).1.wallet := by
  unfold Portfolio.close_position
  cases hl : lookupPos pf.positions s with
  | none => exact h
  | some p =>
    by_cases hst : p.status = PositionStatus.OPEN
    · simp only [hst, if_true]
      exact walletInv_realize_pnl _ _ _
        (walletInv_free_margin _ _ h (by rw [Position.close_margin]; exact hm p hl))
    · simp only [hst, if_false]
      exact h

lemma walletInv_liquidate_position (pf : Portfolio) (s : String) (h : walletInv pf.wallet) :
    walletInv (pf.liquidate_position s).1.wallet := by
  unfold Portfolio.liquidate_position
  cases hl : lookupPos pf.positions s with
  | none => exact h
  | some p =>
    by_cases hst : p.status = PositionStatus.OPEN
    · simp only [hst, if_true]
      exact walletInv_realize_pnl _ _ _ h
    · simp only [hst, if_false]
      exact h

lemma walletInv_applyOp (pf : Portfolio) (op : LedgerOp) (h : walletInv pf.wallet)
    (hok : opOk pf op) : walletInv (pf.applyOp op).wallet := by
  cases op with
  | useMargin a => exact walletInv_use_margin _ _ h
  | freeMargin a => exact walletInv_free_margin _ _ h hok
  | realizePnl p c => exact walletInv_realize_pnl _ _ _ h
  | closePosition s cp c => exact walletInv_close_position _ _ _ _ h hok
  | liquidatePosition s => exact walletInv_liquidate_position _ _ h

/-- C1: for every sequence of the named Wallet/Portfolio operations starting
from a state satisfying available + margin ≤ balance, and in which every
margin release (explicit `free_margin`, or the release inside
`close_position`) frees at most the margin currently in use, every reachable
state still satisfies available + margin ≤ balance; `liquidate_position`
needs no side condition (its `opOk` is trivially true). -/
theorem C1_wallet_invariant (pf : Portfolio) (ops : List LedgerOp)
    (hinv : walletInv pf.wallet) (hsafe : safeOps pf ops) :
    walletInv (pf.applyOps ops).wallet := by
  induction ops generalizing pf with
  | nil => exact hinv
  | cons op ops ih =>
    rw [safeOps] at hsafe
    rw [Portfolio.applyOps, List.foldl_cons]
    exact ih _ (walletInv_applyOp pf op hinv hsafe.1) hsafe.2

/-- Portfolio used by the C1 counterexample: a plain wallet with no margin
in use. -/
def pfC1 : Portfolio := { wallet := { balance := 100, available_balance := 100 } }

/-- C1 counterexample: from a state satisfying the invariant, the single
listed operation `free_margin 10` (releasing more than the zero margin in
use) produces a state with available + margin = 110 > 100 = balance, so the
claim as stated (arbitrary sequences of the listed operations) is false. -/
theorem C1_counterexample :
    walletInv pfC1.wallet ∧
    ¬ walletInv (pfC1.applyOps [LedgerOp.freeMargin 10]).wallet := by
  constructor
  · norm_num [pfC1, walletInv]
  · norm_num [pfC1, walletInv, Portfolio.applyOps, Portfolio.applyOp, Wallet.free_margin]

/-- Open position used by the C1 witness. -/
def posOpenC1 : Position :=
  { symbol := "BTCUSDT", side := PositionSide.SHORT, size := 1, entry_price := 100
    mark_price := 90, status := PositionStatus.OPEN, margin := 20 }

/-- Portfolio used by the C1 witness: 20 of margin reserved for one open
short position. -/
def pfC1w : Portfolio :=
  { positions := [("BTCUSDT", posOpenC1)]
    wallet := { balance := 1000, available_balance := 900, margin_balance := 20 } }

/-- C1 witness: the preserved invariant evaluated along a concrete safe
sequence exercising close, reserve, release and (a no-op) liquidate. -/
theorem C1_witness :
    walletInv (pfC1w.applyOps
      [LedgerOp.closePosition "BTCUSDT" 90 1, LedgerOp.useMargin 50,
        LedgerOp.freeMargin 50, LedgerOp.liquidatePosition "BTCUSDT"]).wallet :=
  C1_wallet_invariant pfC1w _
    (by norm_num [pfC1w, walletInv])
    (by
      norm_num [safeOps, opOk, pfC1w, posOpenC1, Portfolio.applyOp, Portfolio.close_position,
        Portfolio.liquidate_position, lookupPos, setPos, Position.close, Position.liquidate,
        Position.is_short, Wallet.use_margin, Wallet.free_margin, Wallet.realize_pnl])

/-- C4: `close_position` on a symbol with no position record, or whose
position is not OPEN (already closed or liquidated), returns failure and
leaves the whole portfolio - wallet and positions - unchanged; hence a
repeated close of an already-closed position is a failing no-op. -/
theorem C4_close_position_noop (pf : Portfolio) (symbol : String) (close_price commission : ℚ)
    (h : ∀ p, lookupPos pf.positions symbol = some p → p.status ≠ PositionStatus.OPEN) :
    pf.close_position symbol close_price commission = (pf, false) := by
  unfold Portfolio.close_position
  split
  · rfl
  next p hl => rw [if_neg (h p hl)]

/-- Position record used by the C4/C5 concrete checks: a closed short. -/
def posClosed : Position :=
  { symbol := "AAAUSDT", side := PositionSide.SHORT, size := 1, entry_price := 100
    mark_price := 90, status := PositionStatus.CLOSED, margin := 10 }

/-- Portfolio whose only record for AAAUSDT is a closed position. -/
def pfClosed : Portfolio :=
  { positions := [("AAAUSDT", posClosed)]
    wallet := { balance := 1000, available_balance := 1000 } }

/-- C4 witness: closing the already-closed AAAUSDT position fails and leaves
the portfolio untouched. -/
theorem C4_witness : pfClosed.close_position "AAAUSDT" 50 1 = (pfClosed, false) :=
  C4_close_position_noop pfClosed "AAAUSDT" 50 1 (by
    intro p hp
    simp [pfClosed, lookupPos] at hp
    subst hp
    simp [posClosed])

/-- C6: a close with net PnL exactly zero bumps the Wallet loss counter and
not the win counter, while the risk manager resets the consecutive-loss
streak to zero on a zero realized PnL - both rules, for every such close. -/
theorem C6_zero_pnl_asymmetry (w : Wallet) (pnl commission : ℚ)
    (h : pnl - commission = 0) (n : ℕ) (position : Position)
    (hp : position.realized_pnl = 0) :
    (w.realize_pnl pnl commission).loss_count = w.loss_count + 1 ∧
    (w.realize_pnl pnl commission).win_count = w.win_count ∧
    RiskManager.on_position_closed n position = 0 := by
  refine ⟨?_, ?_, ?_⟩ <;>
    simp [Wallet.realize_pnl, RiskManager.on_position_closed, h, hp]

/-- C6 witness: pnl 3 against commission 3 (net zero) on a fresh wallet, and
a position that closed at exactly zero realized PnL. -/
theorem C6_witness :
    (({} : Wallet).realize_pnl 3 3).loss_count = ({} : Wallet).loss_count + 1 ∧
    (({} : Wallet).realize_pnl 3 3).win_count = ({} : Wallet).win_count ∧
    RiskManager.on_position_closed 4 { posClosed with realized_pnl := 0 } = 0 :=
  C6_zero_pnl_asymmetry {} 3 3 (by norm_num) 4 _ rfl

/-- C7 (amended): a successful `use_margin amount` followed by
`free_margin amount` restores both available balance and margin-in-use,
provided the margin balance was non-negative to begin with. -/
theorem C7_margin_roundtrip (w : Wallet) (amount : ℚ) (hm : 0 ≤ w.margin_balance)
    (hs : (w.use_margin amount).2 = true) :
    ((w.use_margin amount).1.free_margin amount).available_balance = w.available_balance ∧
    ((w.use_margin amount).1.free_margin amount).margin_balance = w.margin_balance := by
  unfold Wallet.use_margin at hs ⊢
  by_cases h : amount ≤ w.available_balance
  · rw [if_pos h]
    unfold Wallet.free_margin
    constructor
    · simp only
      ring
    · simp only
      rw [add_sub_cancel_right, max_eq_right hm]
  · rw [if_neg h] at hs
    exact absurd hs (by simp)

/-- C7 witness: the round trip at a concrete wallet with non-negative margin
balance. -/
theorem C7_witness :
    let w : Wallet := { balance := 100, available_balance := 80, margin_balance := 20 }
    ((w.use_margin 30).1.free_margin 30).available_balance = w.available_balance ∧
    ((w.use_margin 30).1.free_margin 30).margin_balance = w.margin_balance :=
  C7_margin_roundtrip _ 30 (by norm_num) (by norm_num [Wallet.use_margin])

/-- C9: after `update_mark_price`, the unrealized PnL is
(entry - mark) x size for a short and (mark - entry) x size for a long, and
for a positively sized position it is positive exactly when the mark price
is below (short) respectively above (long) the entry price. -/
theorem C9_unrealized_pnl (p : Position) (new_price : ℚ) (hsize : 0 < p.size) :
    ((p.update_mark_price new_price).unrealized_pnl =
      if p.is_short then (p.entry_price - new_price) * p.size
      else (new_price - p.entry_price) * p.size) ∧
    (p.is_short = true →
      (0 < (p.update_mark_price new_price).unrealized_pnl ↔ new_price < p.entry_price)) ∧
    (p.is_short = false →
      (0 < (p.update_mark_price new_price).unrealized_pnl ↔ p.entry_price < new_price)) := by
  have hpnl : (p.update_mark_price new_price).unrealized_pnl =
      if p.is_short then (p.entry_price - new_price) * p.size
      else (new_price - p.entry_price) * p.size := by
    unfold Position.update_mark_price Position.calculate_unrealized_pnl Position.is_short
    simp only
  refine ⟨hpnl, ?_, ?_⟩
  · intro hshort
    rw [hpnl, if_pos hshort, mul_pos_iff_of_pos_right hsize, sub_pos]
  · intro hlong
    rw [hpnl, if_neg (by simp [hlong]), mul_pos_iff_of_pos_right hsize, sub_pos]

/-- Short position used by the C9 witness. -/
def posC9 : Position :=
  { symbol := "ETHUSDT", side := PositionSide.SHORT, size := 2, entry_price := 10
    mark_price := 10, status := PositionStatus.OPEN, margin := 4 }

/-- C9 witness: the short formula and sign rule evaluated at mark 8 below
entry 10 on a size-2 short. -/
theorem C9_witness :
    ((posC9.update_mark_price 8).unrealized_pnl =
      if posC9.is_short then (posC9.entry_price - 8) * posC9.size
      else (8 - posC9.entry_price) * posC9.size) ∧
    (posC9.is_short = true →
      (0 < (posC9.update_mark_price 8).unrealized_pnl ↔ (8:ℚ) < posC9.entry_price)) ∧
    (posC9.is_short = false →
      (0 < (posC9.update_mark_price 8).unrealized_pnl ↔ posC9.entry_price < 8)) :=
  C9_unrealized_pnl posC9 8 (by norm_num [posC9])

/-- C10: with a zero daily baseline balance, the daily return percentage is
exactly zero, so under the (pydantic-validated) positive thresholds the risk
manager raises no drawdown alert and `should_stop_trading` never returns the
drawdown reason. -/
theorem C10_zero_baseline (w : Wallet) (c : RiskConfig) (n m : ℕ)
    (h0 : w.daily_start_balance = 0) (hc : c.valid) :
    w.daily_return_pct = 0 ∧
    RiskManager.check_daily_drawdown c w = none ∧
    RiskManager.should_stop_trading c n m w ≠ some StopReason.drawdown := by
  obtain ⟨hw5, _, hs10, _⟩ := hc
  have hpct : w.daily_return_pct = 0 := by simp [Wallet.daily_return_pct, h0]
  have hshut : ¬ c.daily_shutdown_threshold ≤ |w.daily_return_pct| := by
    rw [hpct, abs_zero]
    linarith
  have hwarn : ¬ c.daily_warning_threshold ≤ |w.daily_return_pct| := by
    rw [hpct, abs_zero]
    linarith
  refine ⟨hpct, ?_, ?_⟩
  · unfold RiskManager.check_daily_drawdown
    rw [if_neg hshut, if_neg hwarn]
  · unfold RiskManager.should_stop_trading
    rw [if_neg hshut]
    split
    · simp
    · split <;> simp

/-- C10 witness: a fresh wallet (zero baseline) under the default risk
configuration with zero consecutive losses against the default limit 5. -/
theorem C10_witness :
    ({} : Wallet).daily_return_pct = 0 ∧
    RiskManager.check_daily_drawdown {} {} = none ∧
    RiskManager.should_stop_trading {} 0 5 {} ≠ some StopReason.drawdown :=
  C10_zero_baseline {} {} 0 5 rfl (by norm_num [RiskConfig.valid])

/-- C2 (code behavior at the critical threshold): when the absolute daily
return percentage reaches the shutdown threshold at the start of a scan
cycle, the cycle emits the critical event and triggers the emergency stop,
but the `DailyDrawdownExceededError` ends up in the cycle's own caught-and-
logged slot: `process_scan_cycle` is total and returns a normal
`CycleResult` for every input, so the drawdown failure never reaches the
caller - contradicting the claimed propagation. -/
theorem C2_drawdown_swallowed (pf : Portfolio) (warn shut : ℚ) (env : ScanEnv)
    (h : shut ≤ |pf.wallet.daily_return_pct|) :
    (TradeEngine.process_scan_cycle pf warn shut env).critical_emitted = true ∧
    (TradeEngine.process_scan_cycle pf warn shut env).emergency_stop = true ∧
    (TradeEngine.process_scan_cycle pf warn shut env).error_logged =
      some (EngineError.dailyDrawdownExceeded |pf.wallet.daily_return_pct| shut) := by
  unfold TradeEngine.process_scan_cycle
  rw [if_pos h]
  exact ⟨rfl, rfl, rfl⟩

/-- Wallet sitting at a -25 percent day, past the default 20 percent
shutdown threshold. -/
def wDrawdown : Wallet :=
  { balance := 750, available_balance := 750, daily_start_balance := 1000, daily_pnl := -250 }

/-- Trivial scan environment: no gainers, no signals, no portfolio effect. -/
def envTrivial : ScanEnv :=
  { top_gainers := Except.ok []
    signal_result := fun _ => Except.ok false
    open_effect := fun pf _ => pf
    max_concurrent_positions := 3 }

/-- C2 witness: the swallowed drawdown failure evaluated at the concrete
-25 percent day against thresholds 10/20. -/
theorem C2_witness :
    (TradeEngine.process_scan_cycle { wallet := wDrawdown } 10 20 envTrivial).critical_emitted = true ∧
    (TradeEngine.process_scan_cycle { wallet := wDrawdown } 10 20 envTrivial).emergency_stop = true ∧
    (TradeEngine.process_scan_cycle { wallet := wDrawdown } 10 20 envTrivial).error_logged =
      some (EngineError.dailyDrawdownExceeded |({ wallet := wDrawdown } : Portfolio).wallet.daily_return_pct| 20) :=
  C2_drawdown_swallowed { wallet := wDrawdown } 10 20 envTrivial
    (by norm_num [wDrawdown, Wallet.daily_return_pct])

/-- C5 (amended): with capacity available, a candidate symbol is skipped by
the scan loop exactly when any position record exists for it - open, closed
or liquidated alike - and a skipped symbol contributes no signal check to
the cycle; it is evaluated exactly when no record exists at all. -/
theorem C5_skip_rule (env : ScanEnv) (pf : Portfolio) (symbol : String)
    (hcap : pf.can_open_position env.max_concurrent_positions = true) :
    (TradeEngine.candidate_action pf env.max_concurrent_positions symbol = CandidateAction.skip ↔
      (lookupPos pf.positions symbol).isSome = true) ∧
    (TradeEngine.candidate_action pf env.max_concurrent_positions symbol = CandidateAction.check ↔
      lookupPos pf.positions symbol = none) ∧
    ((lookupPos pf.positions symbol).isSome = true →
      ∀ rest, TradeEngine.scan_candidates env pf (symbol :: rest) =
        TradeEngine.scan_candidates env pf rest) := by
  have hact : TradeEngine.candidate_action pf env.max_concurrent_positions symbol =
      if (lookupPos pf.positions symbol).isSome then CandidateAction.skip
      else CandidateAction.check := by
    unfold TradeEngine.candidate_action
    rw [hcap, if_neg (by simp)]
  refine ⟨?_, ?_, ?_⟩
  · rw [hact]
    cases lookupPos pf.positions symbol <;> simp
  · rw [hact]
    cases lookupPos pf.positions symbol <;> simp
  · intro hsome rest
    rw [TradeEngine.scan_candidates, hact, if_pos hsome]

/-- C5 witness: the amended skip rule evaluated on the portfolio whose only
AAAUSDT record is a closed position, with capacity for 5 positions. -/
theorem C5_witness :
    (TradeEngine.candidate_action pfClosed envTrivial.max_concurrent_positions "AAAUSDT" =
        CandidateAction.skip ↔ (lookupPos pfClosed.positions "AAAUSDT").isSome = true) ∧
    (TradeEngine.candidate_action pfClosed envTrivial.max_concurrent_positions "AAAUSDT" =
        CandidateAction.check ↔ lookupPos pfClosed.positions "AAAUSDT" = none) ∧
    ((lookupPos pfClosed.positions "AAAUSDT").isSome = true →
      ∀ rest, TradeEngine.scan_candidates envTrivial pfClosed ("AAAUSDT" :: rest) =
        TradeEngine.scan_candidates envTrivial pfClosed rest) :=
  C5_skip_rule envTrivial pfClosed "AAAUSDT" (by decide)

/-- C5 counterexample: AAAUSDT's only record is CLOSED, there is spare
capacity, yet the candidate gate skips it (no signal check runs), whereas
the claim says a symbol whose only recorded position is closed is still
evaluated. -/
theorem C5_counterexample :
    (pfClosed.get_position "AAAUSDT").map Position.status = some PositionStatus.CLOSED ∧
    pfClosed.can_open_position 5 = true ∧
    TradeEngine.candidate_action pfClosed 5 "AAAUSDT" = CandidateAction.skip ∧
    TradeEngine.scan_candidates envTrivial pfClosed ["AAAUSDT"] = [] := by
  refine ⟨?_, ?_, ?_, ?_⟩
  · decide
  · decide
  · decide
  · decide

/-- C8 (amended): on fewer than 50 bars, `calculate_indicators` fails with
the insufficient-data error, `generate_short_signals` propagates it, and
`should_open_short` propagates it too provided the indicators are enabled -
for every indicator computation and signal derivation. -/
theorem C8_insufficient_data (compute : List Bar → Indicators)
    (build : Indicators → List Bar → Except String (List (String × Bool)))
    (klines : List Bar) (logic : SignalLogic) (h : klines.length < 50) :
    StrategyEngine.calculate_indicators compute klines =
      Except.error SignalError.insufficientData ∧
    StrategyEngine.generate_short_signals compute build klines =
      Except.error SignalError.insufficientData ∧
    StrategyEngine.should_open_short true logic compute build klines =
      Except.error SignalError.insufficientData := by
  have h1 : StrategyEngine.calculate_indicators compute klines =
      Except.error SignalError.insufficientData := by
    unfold StrategyEngine.calculate_indicators
    rw [if_pos h]
  have h2 : StrategyEngine.generate_short_signals compute build klines =
      Except.error SignalError.insufficientData := by
    unfold StrategyEngine.generate_short_signals
    rw [h1]
  refine ⟨h1, h2, ?_⟩
  unfold StrategyEngine.should_open_short
  rw [if_neg (by simp), h2]

/-- Indicator computation used by concrete signal checks: the empty dict. -/
def computeNone : List Bar → Indicators := fun _ => []

/-- Signal derivation used by concrete signal checks: the empty signal map. -/
def buildNone : Indicators → List Bar → Except String (List (String × Bool)) :=
  fun _ _ => Except.ok []

/-- C8 witness: all three failures evaluated on an empty kline list with
indicators enabled. -/
theorem C8_witness :
    StrategyEngine.calculate_indicators computeNone [] =
      Except.error SignalError.insufficientData ∧
    StrategyEngine.generate_short_signals computeNone buildNone [] =
      Except.error SignalError.insufficientData ∧
    StrategyEngine.should_open_short true SignalLogic.ALL_TRUE computeNone buildNone [] =
      Except.error SignalError.insufficientData :=
  C8_insufficient_data computeNone buildNone [] SignalLogic.ALL_TRUE (by decide)

/-- C8 counterexample: with the indicators disabled (a legal configuration:
config.py `IndicatorConfig.enabled` defaults to true but is settable), a
0-bar input makes `should_open_short` return the no-short decision instead
of failing, so the claim as stated - that `should_open_short` fails on every
input of fewer than 50 bars - is false. -/
theorem C8_counterexample :
    ([] : List Bar).length < 50 ∧
    StrategyEngine.should_open_short false SignalLogic.ALL_TRUE computeNone buildNone [] =
      Except.ok (false, "indicators disabled") := by
  exact ⟨by decide, rfl⟩

/-! ## Order fill sequences (for the fill-accounting claim)

A fill event is a (quantity, price) pair with zero commission (commission
plays no part in the fill-accounting claim). -/

/-- A freshly created order for a requested quantity, as built by the engine
before submitting a trade: nothing filled, no average price. -/
def mkOrder (quantity : ℚ) : Order := { quantity := quantity }

/-- Apply a sequence of fill events to an order, oldest first. -/
def Order.applyFills (o : Order) : List (ℚ × ℚ) → Order
  | [] => o
  | (q, p) :: rest => (o.fill q p 0).applyFills rest

/-- Total filled quantity of a fill sequence. -/
def sumQty (fills : List (ℚ × ℚ)) : ℚ := (fills.map Prod.fst).sum

/-- Total notional (price x quantity summed) of a fill sequence. -/
def sumNotional (fills : List (ℚ × ℚ)) : ℚ := (fills.map fun f => f.2 * f.1).sum

/-- Each fill fits into the quantity still remaining when it arrives. -/
def boundedFills : Order → List (ℚ × ℚ) → Prop
  | _, [] => True
  | o, (q, p) :: rest => q ≤ o.remaining_quantity ∧ boundedFills (o.fill q p 0) rest

lemma sumQty_cons (q p : ℚ) (rest : List (ℚ × ℚ)) :
    sumQty ((q, p) :: rest) = q + sumQty rest := by
  simp [sumQty]

lemma sumNotional_cons (q p : ℚ) (rest : List (ℚ × ℚ)) :
    sumNotional ((q, p) :: rest) = p * q + sumNotional rest := by
  simp [sumNotional]

lemma sumQty_append (a b : List (ℚ × ℚ)) : sumQty (a ++ b) = sumQty a + sumQty b := by
  simp [sumQty]

lemma sumQty_nonneg (l : List (ℚ × ℚ)) (h : ∀ f ∈ l, 0 < f.1) : 0 ≤ sumQty l := by
  induction l with
  | nil => simp [sumQty]
  | cons f rest ih =>
    obtain ⟨q, p⟩ := f
    have hq := h (q, p) (List.mem_cons_self _ _)
    have hr := ih fun g hg => h g (List.mem_cons_of_mem _ hg)
    rw [sumQty_cons]
    simp only at hq
    linarith

lemma sumQty_take_le (l : List (ℚ × ℚ)) (h : ∀ f ∈ l, 0 < f.1) (n : ℕ) :
    sumQty (l.take n) ≤ sumQty l := by
  conv_rhs => rw [← List.take_append_drop n l]
  rw [sumQty_append]
  have hdrop : 0 ≤ sumQty (l.drop n) :=
    sumQty_nonneg _ fun f hf => h f (List.mem_of_mem_drop hf)
  linarith

lemma Order.fill_filled_quantity (o : Order) (q p c : ℚ) :
    (o.fill q p c).filled_quantity = o.filled_quantity + q := by
  simp only [Order.fill]
  split_ifs <;> rfl

lemma Order.fill_quantity (o : Order) (q p c : ℚ) :
    (o.fill q p c).quantity = o.quantity := by
  simp only [Order.fill]
  split_ifs <;> rfl

lemma Order.fill_avg_none (o : Order) (q p c : ℚ) (h : o.avg_price = none) :
    (o.fill q p c).avg_price = some p := by
  simp only [Order.fill, h]
  split_ifs <;> rfl

lemma Order.fill_avg_some (o : Order) (q p c a : ℚ) (h : o.avg_price = some a) :
    (o.fill q p c).avg_price =
      some ((a * o.filled_quantity + p * q) / (o.filled_quantity + q)) := by
  simp only [Order.fill, h]
  split_ifs <;> simp [add_sub_cancel_right]

lemma applyFills_filled_quantity (fills : List (ℚ × ℚ)) (o : Order) :
    (o.applyFills fills).filled_quantity = o.filled_quantity + sumQty fills := by
  induction fills generalizing o with
  | nil => simp [Order.applyFills, sumQty]
  | cons f rest ih =>
    obtain ⟨q, p⟩ := f
    simp only [Order.applyFills]
    rw [ih, Order.fill_filled_quantity, sumQty_cons]
    ring

lemma applyFills_quantity (fills : List (ℚ × ℚ)) (o : Order) :
    (o.applyFills fills).quantity = o.quantity := by
  induction fills generalizing o with
  | nil => rfl
  | cons f rest ih =>
    obtain ⟨q, p⟩ := f
    simp only [Order.applyFills]
    rw [ih, Order.fill_quantity]

lemma applyFills_avg (fills : List (ℚ × ℚ)) (o : Order) (v : ℚ)
    (hpos : ∀ f ∈ fills, 0 < f.1) (hfq : 0 < o.filled_quantity)
    (havg : o.avg_price = some (v / o.filled_quantity)) :
    (o.applyFills fills).avg_price =
      some ((v + sumNotional fills) / (o.filled_quantity + sumQty fills)) := by
  induction fills generalizing o v with
  | nil =>
    simp only [Order.applyFills, sumNotional, sumQty, List.map_nil, List.sum_nil, add_zero]
    exact havg
  | cons f rest ih =>
    obtain ⟨q, p⟩ := f
    have hq : 0 < q := hpos (q, p) (List.mem_cons_self _ _)
    have havg2 : (o.fill q p 0).avg_price =
        some ((v + p * q) / (o.filled_quantity + q)) := by
      rw [Order.fill_avg_some o q p 0 (v / o.filled_quantity) havg,
        div_mul_cancel₀ v (ne_of_gt hfq)]
    have hfq2 : 0 < (o.fill q p 0).filled_quantity := by
      rw [Order.fill_filled_quantity]
      linarith
    have havg3 : (o.fill q p 0).avg_price =
        some ((v + p * q) / (o.fill q p 0).filled_quantity) := by
      rw [Order.fill_filled_quantity, havg2]
    have hrec := ih (o.fill q p 0) (v + p * q)
      (fun g hg => hpos g (List.mem_cons_of_mem _ hg)) hfq2 havg3
    simp only [Order.applyFills]
    rw [hrec, Order.fill_filled_quantity, sumQty_cons, sumNotional_cons]
    congr 1
    ring

lemma applyFills_le_quantity (fills : List (ℚ × ℚ)) (o : Order)
    (h0 : o.filled_quantity ≤ o.quantity) (hb : boundedFills o fills) :
    (o.applyFills fills).filled_quantity ≤ o.quantity := by
  induction fills generalizing o with
  | nil => simpa [Order.applyFills] using h0
  | cons f rest ih =>
    obtain ⟨q, p⟩ := f
    rw [boundedFills] at hb
    have hrem := hb.1
    unfold Order.remaining_quantity at hrem
    have h1 : (o.fill q p 0).filled_quantity ≤ (o.fill q p 0).quantity := by
      rw [Order.fill_filled_quantity, Order.fill_quantity]
      linarith
    simp only [Order.applyFills]
    have := ih (o.fill q p 0) h1 hb.2
    rwa [Order.fill_quantity] at this

/-- C3 (amended): for a fresh order of non-negative requested quantity Q and
any sequence of strictly positive fills, the filled quantity is the running
sum of fill quantities (hence monotonically non-decreasing along every
prefix), the average price is exactly the notional-weighted mean of the
fills so far, and - provided each fill fits into the quantity remaining when
it arrives - the filled quantity never exceeds Q. -/
theorem C3_fill_accounting (Q : ℚ) (fills : List (ℚ × ℚ)) (hQ : 0 ≤ Q)
    (hpos : ∀ f ∈ fills, 0 < f.1) :
    ((mkOrder Q).applyFills fills).filled_quantity = sumQty fills ∧
    (∀ n, ((mkOrder Q).applyFills (fills.take n)).filled_quantity ≤
      ((mkOrder Q).applyFills fills).filled_quantity) ∧
    (fills ≠ [] →
      ((mkOrder Q).applyFills fills).avg_price =
        some (sumNotional fills / sumQty fills)) ∧
    (boundedFills (mkOrder Q) fills →
      ((mkOrder Q).applyFills fills).filled_quantity ≤ Q) := by
  have hfq0 : (mkOrder Q).filled_quantity = 0 := rfl
  have hsum : ∀ l : List (ℚ × ℚ),
      ((mkOrder Q).applyFills l).filled_quantity = sumQty l := by
    intro l
    rw [applyFills_filled_quantity, hfq0, zero_add]
  refine ⟨hsum fills, ?_, ?_, ?_⟩
  · intro n
    rw [hsum, hsum]
    exact sumQty_take_le fills hpos n
  · intro hne
    cases fills with
    | nil => exact absurd rfl hne
    | cons f rest =>
      obtain ⟨q, p⟩ := f
      have hq : 0 < q := hpos (q, p) (List.mem_cons_self _ _)
      have h1 : ((mkOrder Q).fill q p 0).avg_price = some p :=
        Order.fill_avg_none _ _ _ _ rfl
      have h2 : ((mkOrder Q).fill q p 0).filled_quantity = q := by
        rw [Order.fill_filled_quantity, hfq0, zero_add]
      have h3 : ((mkOrder Q).fill q p 0).avg_price =
          some ((p * q) / ((mkOrder Q).fill q p 0).filled_quantity) := by
        rw [h1, h2, mul_div_cancel_right₀ p (ne_of_gt hq)]
      have h4 := applyFills_avg rest ((mkOrder Q).fill q p 0) (p * q)
        (fun g hg => hpos g (List.mem_cons_of_mem _ hg))
        (by rw [h2]; exact hq) h3
      simp only [Order.applyFills]
      rw [h4, h2, sumQty_cons, sumNotional_cons]
  · intro hb
    have := applyFills_le_quantity fills (mkOrder Q) (by rw [hfq0]; exact hQ) hb
    simpa [mkOrder] using this

/-- C3 witness: the fill accounting evaluated on a 10-quantity order filled
by 2 at price 5 and 3 at price 4 (average price 22/5). -/
theorem C3_witness :
    ((mkOrder 10).applyFills [(2, 5), (3, 4)]).avg_price =
      some (sumNotional [(2, 5), (3, 4)] / sumQty [(2, 5), (3, 4)]) ∧
    ((mkOrder 10).applyFills [(2, 5), (3, 4)]).filled_quantity ≤ 10 := by
  have h := C3_fill_accounting 10 [(2, 5), (3, 4)] (by norm_num) (by
    intro f hf
    simp only [List.mem_cons, List.mem_singleton] at hf
    rcases hf with h | h | h
    · rw [h]; norm_num
    · rw [h]; norm_num
    · exact absurd h (by simp))
  have hb : boundedFills (mkOrder 10) [((2:ℚ), (5:ℚ)), (3, 4)] := by
    refine ⟨?_, ?_, trivial⟩ <;>
      norm_num [mkOrder, Order.remaining_quantity, Order.fill]
  exact ⟨h.2.2.1 (by simp), h.2.2.2 hb⟩

/-- C3 counterexample: a single fill of positive quantity 2 against a fresh
order of requested quantity 1 drives the filled quantity to 2 > 1, so the
claim that positive fills can never exceed the requested quantity is false
as stated. -/
theorem C3_counterexample :
    (0:ℚ) < 2 ∧ (mkOrder 1).quantity < ((mkOrder 1).fill 2 5 0).filled_quantity := by
  constructor
  · norm_num
  · rw [Order.fill_filled_quantity]
    norm_num [mkOrder]

/-- Wallet used by the C7 counterexample: a (pydantic-representable) state
with a negative margin balance. -/
def wC7 : Wallet := { balance := 100, available_balance := 10, margin_balance := -5 }

/-- C7 counterexample: from margin balance -5, `use_margin 3` succeeds, but
the immediate `free_margin 3` clamps the margin balance to 0 instead of
restoring -5, so the round-trip law as stated (for every Wallet state) is
false. -/
theorem C7_counterexample :
    (wC7.use_margin 3).2 = true ∧
    ((wC7.use_margin 3).1.free_margin 3).margin_balance ≠ wC7.margin_balance := by
  constructor
  · norm_num [wC7, Wallet.use_margin]
  · norm_num [wC7, Wallet.use_margin, Wallet.free_margin]

